import Mathlib

/-!
Verification of the lexxy prompt (contextual suggestion) subsystem.

The definitions below are a shallow embedding of the JavaScript sources:
  src/src/elements/prompt.js          (LexicalPromptElement, LocalFilterSource,
                                       InlinePromptSource, DeferredPromptSource)
  src/src/editor/prompt/base_source.js
  src/src/editor/prompt/remote_filter_source.js
  src/src/nodes/action_text_attachment_node.js

Strings manipulated character-by-character in the source are embedded as
`List Char`; JavaScript `null`/`undefined` becomes `Option`; the asynchronous
parts (in-flight requests, debouncing) become explicit trace semantics.

A few leaf helpers of the repository (src/helpers/string_helper.js,
src/helpers/timing_helpers.js, src/editor/contents.js) are not part of the
sources available here; every definition standing in for one of them is
marked `Modelled from the spec:` in its doc comment and follows the
specification wording for that helper.
-/

namespace Lexxy

/-- A prompt item (candidate): the data carried by one
`lexxy-prompt-item` element — its `search` attribute, its optional `sgid`
attribute, and its two templates (`type="menu"` and `type="editor"`). -/
structure PromptItem where
  search : List Char
  sgid : Option String
  menuTemplate : String
  editorTemplate : String
deriving DecidableEq, Repr

/-- A menu `li` element built by `BaseSource.buildListItemElementFor`
(src/src/editor/prompt/base_source.js): it shows the menu template and the
WeakMap of the source (`promptItemByListItem`) associates it back to the
prompt item it was built from.  The association is embedded as a field. -/
structure MenuListItem where
  menuHtml : String
  sourceItem : PromptItem
deriving DecidableEq, Repr

/-- Embedding of `BaseSource.buildListItemElementFor`: build the menu list
item for a prompt item, remembering the association used by
`promptItemFor`. -/
def buildListItemElementFor (promptItem : PromptItem) : MenuListItem :=
  { menuHtml := promptItem.menuTemplate, sourceItem := promptItem }

/-- Lower-case a character sequence (JavaScript `toLowerCase`, ASCII). -/
def lowerChars (s : List Char) : List Char :=
  s.map Char.toLower

/-- Substring containment on character lists (JavaScript
`String.prototype.includes`). -/
def containsSubstr (haystack needle : List Char) : Bool :=
  match haystack with
  | [] => needle.isEmpty
  | c :: t => needle.isPrefixOf (c :: t) || containsSubstr t needle

/-- Modelled from the spec: `filterMatches` lives in
src/helpers/string_helper.js, which is not among the available sources.
The spec says fetch runs a synchronous case-insensitive substring match of
`filter` against each candidate's `searchKey`. -/
def filterMatches (searchableText filter : List Char) : Bool :=
  containsSubstr (lowerChars searchableText) (lowerChars filter)

/-- Embedding of `LocalFilterSource.#buildListItemsFromPromptItems`
(src/src/elements/prompt.js): walk the prompt items in order and keep one
menu list item for each item whose `search` attribute passes
`!filter || filterMatches(searchableText, filter)`. -/
def buildListItemsFromPromptItems (promptItems : List PromptItem)
    (filter : List Char) : List MenuListItem :=
  match promptItems with
  | [] => []
  | promptItem :: rest =>
    if filter.isEmpty || filterMatches promptItem.search filter then
      buildListItemElementFor promptItem ::
        buildListItemsFromPromptItems rest filter
    else
      buildListItemsFromPromptItems rest filter

/-- Embedding of `LocalFilterSource.buildListItems` once the prompt items
are in memory; `InlinePromptSource` (Embedded) passes the construction-time
list and `DeferredPromptSource` (CachedRemote) passes the cached list. -/
def buildListItems (promptItems : List PromptItem) (filter : List Char) :
    List MenuListItem :=
  buildListItemsFromPromptItems promptItems filter

/-- The spec-side matching predicate for claim C3: the search key of the
candidate contains the filter string case-insensitively. -/
def specMatches (filter : List Char) (promptItem : PromptItem) : Bool :=
  containsSubstr (lowerChars promptItem.search) (lowerChars filter)

/-- The position the editor reports for the cursor: either no selected
node, a text node together with the cursor offset and the full text of
the node, or a node that is not a text node. -/
inductive CursorCtx where
  | noSelection : CursorCtx
  | textNode (fullText : List Char) (offset : Nat) : CursorCtx
  | nonText (offset : Nat) : CursorCtx
deriving DecidableEq, Repr

/-- JavaScript string indexing `s[i]` (undefined out of range). -/
def charAt (s : List Char) (i : Nat) : Option Char :=
  s.get? i

/-- Embedding of the update callback of
`LexicalPromptElement.#addTriggerListener` (src/src/elements/prompt.js):
with no session open, decide whether a document change opens one.  The
popover is shown when the node is a text node, the offset is positive, the
character before the cursor is the trigger, and the trigger is either at
the start of the text node (`offset === 1`) or preceded by a space or a
newline. -/
def triggerListenerOpens (ctx : CursorCtx) (trigger : Char) : Bool :=
  match ctx with
  | .textNode fullText offset =>
    decide (0 < offset) &&
    (charAt fullText (offset - 1) == some trigger) &&
    (decide (offset = 1) ||
      (let charBeforeTrigger :=
        if 1 < offset then charAt fullText (offset - 2) else none
       charBeforeTrigger == some ' ' || charBeforeTrigger == some '\n'))
  | _ => false

/-- The spec-side opening condition for claim C4: the character
immediately preceding the cursor equals the trigger character, and either
it is the first character of its containing text node or the character
preceding it is a space or a newline. -/
def specOpensSession (ctx : CursorCtx) (trigger : Char) : Prop :=
  ∃ fullText offset, ctx = CursorCtx.textNode fullText offset ∧
    0 < offset ∧ charAt fullText (offset - 1) = some trigger ∧
    (offset = 1 ∨ (2 ≤ offset ∧
      (charAt fullText (offset - 2) = some ' ' ∨
       charAt fullText (offset - 2) = some '\n')))

/-- JavaScript `String.prototype.lastIndexOf` for a single character
(`none` embeds the -1 result). -/
def lastIndexOfChar : List Char → Char → Option Nat
  | [], _ => none
  | a :: t, c =>
    match lastIndexOfChar t c with
    | some i => some (i + 1)
    | none => if a = c then some 0 else none

/-- Embedding of the update callback of
`LexicalPromptElement.#addCursorPositionListener`
(src/src/elements/prompt.js), run while the session is open: the popover
is hidden when the cursor is in a text node with positive offset and the
trigger is not found in the text before the cursor (or only at or after
the cursor offset), and also when the cursor is not in a text node or is
at offset 0; when no node is selected the callback returns without
hiding. -/
def cursorListenerCloses (ctx : CursorCtx) (trigger : Char) : Bool :=
  match ctx with
  | .noSelection => false
  | .textNode fullText offset =>
    if 0 < offset then
      let textBeforeCursor := fullText.take offset
      match lastIndexOfChar textBeforeCursor trigger with
      | none => true
      | some lastTriggerIndex => decide (offset ≤ lastTriggerIndex)
    else true
  | .nonText _ => true

/-- Modelled from the spec: `Contents.textBackUntil` lives in
src/editor/contents.js, which is not among the available sources.  The
spec defines the filter string as the text between the trigger character
and the cursor, so this returns the text strictly between the last
occurrence of the trigger before the cursor and the cursor (`none` when
the trigger does not occur before the cursor). -/
def textBackUntil (trigger : Char) (fullText : List Char) (offset : Nat) :
    Option (List Char) :=
  let textBeforeCursor := fullText.take offset
  match lastIndexOfChar textBeforeCursor trigger with
  | some i => some (textBeforeCursor.drop (i + 1))
  | none => none

/-- src/src/elements/prompt.js line 102. -/
def NOTHING_FOUND_DEFAULT_MESSAGE : String := "Nothing found"

/-- Embedding of the `#emptyResultsMessage` getter
(src/src/elements/prompt.js): `getAttribute("empty-results") ||
NOTHING_FOUND_DEFAULT_MESSAGE`, where a missing attribute is `none` and
JavaScript `||` also rejects the empty string. -/
def emptyResultsMessage (attr : Option String) : String :=
  match attr with
  | some s => if s.isEmpty then NOTHING_FOUND_DEFAULT_MESSAGE else s
  | none => NOTHING_FOUND_DEFAULT_MESSAGE

/-- One entry of the rendered popover: either a selectable candidate entry
(class `lexxy-prompt-menu__item`) or the single empty-results entry
(class `lexxy-prompt-menu__item--empty`, which the
`.lexxy-prompt-menu__item` selector does not match). -/
inductive RenderedEntry where
  | candidateEntry (item : MenuListItem) : RenderedEntry
  | emptyMessage (message : String) : RenderedEntry
deriving DecidableEq, Repr

/-- A rendered entry is selectable iff it carries the
`lexxy-prompt-menu__item` class, i.e. iff it is a candidate entry; the
empty-results entry is not selectable. -/
def RenderedEntry.selectable : RenderedEntry → Bool
  | .candidateEntry _ => true
  | .emptyMessage _ => false

/-- Embedding of the rendering part of
`LexicalPromptElement.#showFilteredOptions` / `#showResults` /
`#showEmptyResults` (src/src/elements/prompt.js): after clearing the
popover, append the filtered list items when there are any, otherwise
append the single empty-results `li` showing `#emptyResultsMessage`. -/
def showFilteredOptionsRender (filteredListItems : List MenuListItem)
    (emptyResultsAttr : Option String) : List RenderedEntry :=
  if 0 < filteredListItems.length then
    filteredListItems.map RenderedEntry.candidateEntry
  else
    [RenderedEntry.emptyMessage (emptyResultsMessage emptyResultsAttr)]

/-- Embedding of the `#listItemElements` getter: the popover children
matched by `.lexxy-prompt-menu__item`, i.e. the selectable entries. -/
def listItemElements (entries : List RenderedEntry) : List MenuListItem :=
  entries.filterMap (fun e =>
    match e with
    | .candidateEntry item => some item
    | .emptyMessage _ => none)

/-- Embedding of `#selectFirstOption` composed with the `#selectedListItem`
getter: after a render, the selected list item is the first element of
`#listItemElements` when one exists and nothing otherwise. -/
def selectedAfterRender (entries : List RenderedEntry) : Option MenuListItem :=
  (listItemElements entries).head?

/-- Embedding of the state of a `CustomActionTextAttachmentNode`
(src/src/nodes/action_text_attachment_node.js): the signed global id, the
content type and the inner HTML shown in the editor. -/
structure CustomActionTextAttachmentNode where
  sgid : Option String
  contentType : String
  innerHtml : String
deriving DecidableEq, Repr

/-- Embedding of the `CustomActionTextAttachmentNode` constructor: the
content type falls back to "application/vnd.actiontext.unknown" when the
given one is falsy (the empty string embeds the falsy string case). -/
def mkCustomActionTextAttachmentNode (sgid : Option String)
    (contentType : String) (innerHtml : String) :
    CustomActionTextAttachmentNode :=
  { sgid := sgid,
    contentType :=
      if contentType.length = 0 then "application/vnd.actiontext.unknown"
      else contentType,
    innerHtml := innerHtml }

/-- Content inserted into the document by a commit: either an attachment
node (`#insertTemplateAsAttachment`) or the editor template spliced as
editable HTML (`#insertTemplateAsEditableText`). -/
inductive InsertedContent where
  | attachment (node : CustomActionTextAttachmentNode) : InsertedContent
  | editableHtml (html : String) : InsertedContent
deriving DecidableEq, Repr

/-- The static configuration of one `lexxy-prompt` element that the
commit path reads: the `trigger` attribute, the optional `name` attribute
and the presence of `insert-editable-text`. -/
structure PromptConfig where
  trigger : Char
  name : Option String
  insertEditableText : Bool
deriving DecidableEq, Repr

/-- Modelled from the spec: `Contents.replaceTextBackUntil` lives in
src/editor/contents.js, which is not among the available sources.  The
spec says commit replaces the span from the trigger character through the
current filter text, so this removes the given string where it occurs as
the span ending at the cursor (document text before the cursor is
modelled; the inserted nodes are returned separately by the caller). -/
def replaceTextBackUntil (docText stringToReplace : List Char) :
    List Char :=
  if stringToReplace <:+ docText then
    docText.take (docText.length - stringToReplace.length)
  else docText

/-- Embedding of `LexicalPromptElement.#replaceTriggerWithSelectedItem`
(src/src/elements/prompt.js): look the selected list item up in the
source (`promptItemFor`, the WeakMap association); with no prompt item the
commit returns without touching the document; otherwise build
`stringToReplace` from the trigger and the current filter text and either
splice the editor template as editable HTML or insert an attachment node
built from the `sgid` attribute of the item and
`application/vnd.actiontext.<name>` (JavaScript renders a missing name as
"null").  Returns the document text and the inserted content. -/
def replaceTriggerWithSelectedItem (cfg : PromptConfig)
    (selected : Option MenuListItem) (docText : List Char) :
    List Char × List InsertedContent :=
  match selected.map MenuListItem.sourceItem with
  | none => (docText, [])
  | some promptItem =>
    let template := promptItem.editorTemplate
    let filterText :=
      (textBackUntil cfg.trigger docText docText.length).getD []
    let stringToReplace := cfg.trigger :: filterText
    if cfg.insertEditableText then
      (replaceTextBackUntil docText stringToReplace,
        [InsertedContent.editableHtml template])
    else
      (replaceTextBackUntil docText stringToReplace,
        [InsertedContent.attachment
          (mkCustomActionTextAttachmentNode promptItem.sgid
            ("application/vnd.actiontext." ++ cfg.name.getD "null")
            template)])

/-- What a commit leaves behind: the document text before the cursor, the
content inserted at the cursor, and whether the popover stays open and
the editor regains focus. -/
structure CommitOutcome where
  docText : List Char
  inserted : List InsertedContent
  popoverOpen : Bool
  editorFocused : Bool
deriving DecidableEq, Repr

/-- Embedding of `LexicalPromptElement.#optionWasSelected`: run
`#replaceTriggerWithSelectedItem`, then `#hidePopover` and refocus the
editor unconditionally. -/
def optionWasSelected (cfg : PromptConfig) (selected : Option MenuListItem)
    (docText : List Char) : CommitOutcome :=
  let r := replaceTriggerWithSelectedItem cfg selected docText
  { docText := r.1, inserted := r.2, popoverOpen := false,
    editorFocused := true }

/-- An event in the life of one `DeferredPromptSource` instance
(src/src/elements/prompt.js): a call of `fetchPromptItems` begins
(carrying the items the network response would deliver), or the pending
request at the given queue index resolves. -/
inductive DeferredEvent where
  | callStart (responseItems : List PromptItem) : DeferredEvent
  | complete (idx : Nat) : DeferredEvent
deriving DecidableEq, Repr

/-- The observable state of one `DeferredPromptSource` instance: the
`this.promptItems` cache, the `loadPromptItemsFromUrl` requests currently
in flight (with the items each will deliver), and how many network
retrievals have been issued. -/
structure DeferredState where
  promptItems : Option (List PromptItem)
  pending : List (List PromptItem)
  requestCount : Nat
deriving DecidableEq, Repr

/-- Embedding of `DeferredPromptSource.fetchPromptItems`
(src/src/elements/prompt.js), i.e. of
`this.promptItems ??= await this.loadPromptItemsFromUrl(this.url)`:
a starting call reads `promptItems` once; when it is non-nullish the call
returns the cache and issues nothing; when it is nullish the call issues
a network request and suspends at the `await` — the nullish check is not
re-run on resumption, so the resolving request assigns its response to
`promptItems` unconditionally. -/
def deferredStep (s : DeferredState) (e : DeferredEvent) : DeferredState :=
  match e with
  | .callStart responseItems =>
    match s.promptItems with
    | some _ => s
    | none =>
      { s with pending := s.pending ++ [responseItems],
               requestCount := s.requestCount + 1 }
  | .complete idx =>
    match s.pending.get? idx with
    | none => s
    | some responseItems =>
      { promptItems := some responseItems,
        pending := s.pending.eraseIdx idx,
        requestCount := s.requestCount }

/-- Run a `DeferredPromptSource` instance through a sequence of events. -/
def deferredRun (s : DeferredState) (events : List DeferredEvent) :
    DeferredState :=
  events.foldl deferredStep s

/-- Embedding of the `DeferredPromptSource` constructor: it calls
`fetchPromptItems()` immediately on the fresh instance. -/
def deferredInit (responseItems : List PromptItem) : DeferredState :=
  deferredStep { promptItems := none, pending := [], requestCount := 0 }
    (DeferredEvent.callStart responseItems)

/-- Discriminator: the event is the start of a `fetchPromptItems` call. -/
def DeferredEvent.isCall : DeferredEvent → Bool
  | .callStart _ => true
  | .complete _ => false

/-- The overlay-facing state of one open session using a
`RemoteFilterSource` (src/src/editor/prompt/remote_filter_source.js): the
sequence number of the most recently issued retrieval, the retrievals in
flight (each with the list items its response will produce), and the
results the popover currently displays, tagged with the retrieval that
produced them. -/
structure OverlayState where
  latestIssued : Nat
  inFlight : List (Nat × List MenuListItem)
  displayed : Option (Nat × List MenuListItem)
deriving DecidableEq, Repr

/-- An event of one remote-filtering session: a new retrieval is issued
for the current filter (via `buildListItems`), or the in-flight retrieval
with the given sequence number completes. -/
inductive RemoteEvent where
  | issue (results : List MenuListItem) : RemoteEvent
  | complete (seq : Nat) : RemoteEvent
deriving DecidableEq, Repr

/-- Modelled from the spec: the staleness handling of `debounceAsync`
(src/helpers/timing_helpers.js, not among the available sources) composed
with the rendering in `#showFilteredOptions` (src/src/elements/prompt.js).
The spec requires a discard-by-staleness check using a monotonically
increasing request sequence number: every issued retrieval gets the next
sequence number, and the results of a completing retrieval are rendered
into the popover only when its sequence number equals the latest issued
one — otherwise they are discarded and the display is left unchanged. -/
def overlayStep (s : OverlayState) (e : RemoteEvent) : OverlayState :=
  match e with
  | .issue results =>
    { latestIssued := s.latestIssued + 1,
      inFlight := s.inFlight ++ [(s.latestIssued + 1, results)],
      displayed := s.displayed }
  | .complete seq =>
    match s.inFlight.find? (fun p => p.1 == seq) with
    | none => s
    | some p =>
      let remaining := s.inFlight.filter (fun q => q.1 != seq)
      if seq = s.latestIssued then
        { latestIssued := s.latestIssued, inFlight := remaining,
          displayed := some (seq, p.2) }
      else
        { latestIssued := s.latestIssued, inFlight := remaining,
          displayed := s.displayed }

/-- Run a remote-filtering session through a sequence of events. -/
def overlayRun (s : OverlayState) (events : List RemoteEvent) :
    OverlayState :=
  events.foldl overlayStep s

/-- A fresh session: nothing issued, nothing in flight, nothing shown. -/
def overlayInit : OverlayState :=
  { latestIssued := 0, inFlight := [], displayed := none }

/-- Results delivered by retrieval R1 (filter "jo") in the C1 scenario. -/
def resultsR1 : List MenuListItem :=
  [buildListItemElementFor ⟨"Jon".toList, some "P1", "Jon", "Jon"⟩,
   buildListItemElementFor ⟨"John".toList, some "P2", "John", "John"⟩]

/-- Results delivered by retrieval R2 (filter "joh") in the C1 scenario. -/
def resultsR2 : List MenuListItem :=
  [buildListItemElementFor ⟨"John".toList, some "P2", "John", "John"⟩]

/-- The C1 scenario: R1 issued for "jo", R2 issued for "joh", R2 completes
first, R1 completes last. -/
def staleScenario : List RemoteEvent :=
  [RemoteEvent.issue resultsR1, RemoteEvent.issue resultsR2,
   RemoteEvent.complete 2, RemoteEvent.complete 1]

/-- src/src/editor/prompt/remote_filter_source.js line 89. -/
def DEBOUNCE_INTERVAL : Nat := 200

/-- Modelled from the spec: `debounceAsync`
(src/helpers/timing_helpers.js, not among the available sources) wraps
`fetchFilteredListItems` with a trailing debounce of `DEBOUNCE_INTERVAL`
milliseconds — a call fires the wrapped retrieval only if no further call
arrives within the window, so rapid keystrokes collapse into the last
call of the burst.  Given the call times (in ms), this returns the calls
that actually fire a network retrieval. -/
def firedCalls (calls : List Nat) : List Nat :=
  calls.filter (fun t =>
    calls.all (fun u => !(decide (t < u) && decide (u ≤ t + DEBOUNCE_INTERVAL))))

lemma containsSubstr_nil_right (haystack : List Char) :
    containsSubstr haystack [] = true := by
  induction haystack with
  | nil => rfl
  | cons c t ih => simp [containsSubstr, List.isPrefixOf]

lemma specMatches_of_empty (promptItem : PromptItem) :
    specMatches [] promptItem = true := by
  simp [specMatches, lowerChars, containsSubstr_nil_right]

/-- Claim C3: for every candidate set and every filter string, Embedded and
CachedRemote filtering (`buildListItems`) returns exactly one menu entry
per candidate whose search key contains the filter string
case-insensitively, preserving the original source order of the
candidates, and no entry for any other candidate: the result is the map
of the entry builder over the filtered candidate list. -/
theorem buildListItems_filters_by_search (promptItems : List PromptItem)
    (filter : List Char) :
    buildListItems promptItems filter =
      (promptItems.filter (specMatches filter)).map buildListItemElementFor := by
  induction promptItems with
  | nil => rfl
  | cons promptItem rest ih =>
    by_cases hf : filter.isEmpty
    · have hfilter : filter = [] := by
        cases filter with
        | nil => rfl
        | cons c t => simp [List.isEmpty] at hf
      subst hfilter
      simp [buildListItems, buildListItemsFromPromptItems,
        specMatches_of_empty, List.filter] at ih ⊢
      exact ih
    · by_cases hm : specMatches filter promptItem = true
      · simp [buildListItems, buildListItemsFromPromptItems, hf,
          filterMatches, specMatches] at ih hm ⊢
        simp [List.filter, hm, specMatches, ih]
      · simp [buildListItems, buildListItemsFromPromptItems, hf,
          filterMatches, specMatches] at ih hm ⊢
        simp [List.filter, hm, specMatches, ih]

/-- Claim C4: while no session is open, a document change opens a session
iff the character immediately preceding the cursor equals the trigger and
either it is the first character of its containing text node or the
character preceding it is a space or newline; consequently, in
"email@host" with the cursor right after the "@", no session opens. -/
theorem triggerListenerOpens_iff :
    (∀ (ctx : CursorCtx) (trigger : Char),
      triggerListenerOpens ctx trigger = true ↔ specOpensSession ctx trigger)
    ∧ triggerListenerOpens
        (CursorCtx.textNode ("email@host".toList) 6) '@' = false := by
  constructor
  · intro ctx trigger
    cases ctx with
    | noSelection => simp [triggerListenerOpens, specOpensSession]
    | nonText offset => simp [triggerListenerOpens, specOpensSession]
    | textNode fullText offset =>
      simp only [triggerListenerOpens, specOpensSession,
        Bool.and_eq_true, Bool.or_eq_true, decide_eq_true_eq, beq_iff_eq]
      constructor
      · rintro ⟨⟨hpos, hchar⟩, hrest⟩
        refine ⟨fullText, offset, rfl, hpos, hchar, ?_⟩
        rcases hrest with h1 | h2
        · exact Or.inl h1
        · by_cases hgt : 1 < offset
          · right
            refine ⟨hgt, ?_⟩
            simp only [if_pos hgt] at h2
            rcases h2 with h | h
            · exact Or.inl h
            · exact Or.inr h
          · simp only [if_neg hgt] at h2
            rcases h2 with h | h <;> simp at h
      · rintro ⟨ft, off, heq, hpos, hchar, hrest⟩
        obtain ⟨rfl, rfl⟩ : fullText = ft ∧ offset = off := by
          injection heq with h1 h2; exact ⟨h1, h2⟩
        refine ⟨⟨hpos, hchar⟩, ?_⟩
        rcases hrest with h1 | ⟨hge, h⟩
        · exact Or.inl h1
        · right
          have hgt : 1 < offset := hge
          simp only [if_pos hgt]
          rcases h with h | h
          · exact Or.inl h
          · exact Or.inr h
  · decide

lemma lastIndexOfChar_isSome_iff (s : List Char) (c : Char) :
    (lastIndexOfChar s c).isSome = true ↔ c ∈ s := by
  induction s with
  | nil => simp [lastIndexOfChar]
  | cons a t ih =>
    simp only [lastIndexOfChar, List.mem_cons]
    cases h : lastIndexOfChar t c with
    | some i =>
      simp only [Option.isSome_some, true_iff]
      right
      have := ih.mp (by simp [h])
      exact this
    | none =>
      by_cases hac : a = c
      · simp [hac]
      · simp only [if_neg hac]
        constructor
        · intro hfalse; simp at hfalse
        · rintro (rfl | hmem)
          · exact absurd rfl hac
          · exact absurd (ih.mpr hmem) (by simp [h])

lemma lastIndexOfChar_lt_length {s : List Char} {c : Char} {i : Nat}
    (h : lastIndexOfChar s c = some i) : i < s.length := by
  induction s generalizing i with
  | nil => simp [lastIndexOfChar] at h
  | cons a t ih =>
    simp only [lastIndexOfChar] at h
    cases ht : lastIndexOfChar t c with
    | some j =>
      rw [ht] at h
      obtain rfl : j + 1 = i := by injection h
      have := ih ht
      simp
      omega
    | none =>
      rw [ht] at h
      by_cases hac : a = c
      · simp only [if_pos hac] at h
        obtain rfl : (0 : Nat) = i := by injection h
        simp
      · simp [if_neg hac] at h

lemma charAt_take {i offset : Nat} (fullText : List Char) (hi : i < offset) :
    charAt (fullText.take offset) i = charAt fullText i := by
  simp [charAt, List.get?_eq_getElem?, List.getElem?_take_of_lt hi]

lemma mem_take_of_charAt {fullText : List Char} {offset i : Nat} {c : Char}
    (hi : i < offset) (hchar : charAt fullText i = some c) :
    c ∈ fullText.take offset := by
  have : charAt (fullText.take offset) i = some c := by
    rw [charAt_take fullText hi]; exact hchar
  exact List.get?_mem this

/-- The spec-side closing condition of claim C7 holds exactly when no
occurrence of the trigger lies strictly before the cursor; this lemma
characterises the embedded listener on text nodes. -/
lemma cursorListenerCloses_textNode_iff (fullText : List Char)
    (offset : Nat) (trigger : Char) :
    cursorListenerCloses (CursorCtx.textNode fullText offset) trigger = false
      ↔ ∃ i, i < offset ∧ charAt fullText i = some trigger := by
  simp only [cursorListenerCloses]
  by_cases hpos : 0 < offset
  · simp only [if_pos hpos]
    cases h : lastIndexOfChar (fullText.take offset) trigger with
    | none =>
      simp only []
      constructor
      · intro hfalse; simp at hfalse
      · rintro ⟨i, hi, hchar⟩
        exfalso
        have hmem : trigger ∈ fullText.take offset :=
          mem_take_of_charAt hi hchar
        have := (lastIndexOfChar_isSome_iff (fullText.take offset) trigger).mpr hmem
        simp [h] at this
    | some lastTriggerIndex =>
      have hlt : lastTriggerIndex < (fullText.take offset).length :=
        lastIndexOfChar_lt_length h
      have hltoff : lastTriggerIndex < offset := by
        have : (fullText.take offset).length ≤ offset := by
          simp [List.length_take]
        omega
      simp only [decide_eq_false_iff_not, not_le]
      constructor
      · intro _
        have hmem : trigger ∈ fullText.take offset :=
          (lastIndexOfChar_isSome_iff (fullText.take offset) trigger).mp
            (by simp [h])
        obtain ⟨j, hget⟩ := List.mem_iff_get?.mp hmem
        have hjlen : j < (fullText.take offset).length := by
          by_contra hge
          push_neg at hge
          rw [List.get?_eq_none.mpr hge] at hget
          exact Option.noConfusion hget
        have hjoff : j < offset := by
          have : (fullText.take offset).length ≤ offset := by
            simp [List.length_take]
          omega
        refine ⟨j, hjoff, ?_⟩
        rw [← charAt_take fullText hjoff]
        exact hget
      · intro _
        exact hltoff
  · simp only [if_neg hpos]
    constructor
    · intro hfalse; simp at hfalse
    · rintro ⟨i, hi, _⟩
      omega

/-- Claim C7: while a session is open, a change that keeps the cursor in
the same text node strictly after a trigger occurrence keeps the session
open (the listener hides nothing exactly when a trigger occurrence lies
strictly before the cursor), the filter string tracks the text between
the trigger and the cursor (here "jo" becomes "joh"), a cursor outside
any text node closes the session, and moving the cursor to or before the
trigger closes it (concretely, offset 6 in "hello @joh"). -/
theorem cursorListener_session_lifecycle :
    (∀ (fullText : List Char) (offset : Nat) (trigger : Char),
      cursorListenerCloses (CursorCtx.textNode fullText offset) trigger = false
        ↔ ∃ i, i < offset ∧ charAt fullText i = some trigger)
    ∧ (∀ (offset : Nat) (trigger : Char),
        cursorListenerCloses (CursorCtx.nonText offset) trigger = true)
    ∧ cursorListenerCloses
        (CursorCtx.textNode ("hello @jo".toList) 9) '@' = false
    ∧ textBackUntil '@' ("hello @jo".toList) 9 = some ("jo".toList)
    ∧ cursorListenerCloses
        (CursorCtx.textNode ("hello @joh".toList) 10) '@' = false
    ∧ textBackUntil '@' ("hello @joh".toList) 10 = some ("joh".toList)
    ∧ cursorListenerCloses
        (CursorCtx.textNode ("hello @joh".toList) 6) '@' = true := by
  refine ⟨cursorListenerCloses_textNode_iff, ?_, ?_, ?_, ?_, ?_, ?_⟩
  · intro offset trigger; rfl
  · decide
  · decide
  · decide
  · decide
  · decide

/-- Claim C8: whenever a fetch yields zero candidates the overlay renders
exactly one entry, it is non-selectable and shows the configured
empty-results message (the default "Nothing found" when none is
configured); with one or more candidates every rendered entry is
selectable, so no empty-results entry appears. -/
theorem showFilteredOptions_empty_results :
    (∀ (attr : Option String),
      showFilteredOptionsRender [] attr =
        [RenderedEntry.emptyMessage (emptyResultsMessage attr)]
      ∧ (showFilteredOptionsRender [] attr).length = 1
      ∧ ∀ e ∈ showFilteredOptionsRender [] attr, e.selectable = false)
    ∧ (∀ (items : List MenuListItem) (attr : Option String),
        items ≠ [] →
        ∀ e ∈ showFilteredOptionsRender items attr, e.selectable = true)
    ∧ emptyResultsMessage none = NOTHING_FOUND_DEFAULT_MESSAGE
    ∧ (∀ (s : String), ¬ s.isEmpty → emptyResultsMessage (some s) = s) := by
  refine ⟨?_, ?_, rfl, ?_⟩
  · intro attr
    refine ⟨rfl, rfl, ?_⟩
    intro e he
    simp [showFilteredOptionsRender] at he
    subst he
    rfl
  · intro items attr hne e he
    have hlen : 0 < items.length := List.length_pos.mpr hne
    simp only [showFilteredOptionsRender, if_pos hlen, List.mem_map] at he
    obtain ⟨item, _, rfl⟩ := he
    rfl
  · intro s hs
    simp [emptyResultsMessage, hs]

/-- Closed witness for the theorem of claim C8: instantiating the empty
and the non-empty branches, and the configured message, at concrete
inputs. -/
theorem showFilteredOptions_empty_results_witness :
    (showFilteredOptionsRender [] none =
      [RenderedEntry.emptyMessage "Nothing found"])
    ∧ (∀ e ∈ showFilteredOptionsRender
        [buildListItemElementFor ⟨[], none, "m", "e"⟩] none,
        e.selectable = true)
    ∧ emptyResultsMessage (some "No people found") = "No people found" := by
  refine ⟨?_, ?_, ?_⟩
  · have h := (showFilteredOptions_empty_results.1 none).1
    simpa [emptyResultsMessage, NOTHING_FOUND_DEFAULT_MESSAGE] using h
  · exact showFilteredOptions_empty_results.2.1
      [buildListItemElementFor ⟨[], none, "m", "e"⟩] none (by decide)
  · exact showFilteredOptions_empty_results.2.2.2 "No people found" (by decide)

lemma lastIndexOfChar_eq_none_of_not_mem {s : List Char} {c : Char}
    (h : c ∉ s) : lastIndexOfChar s c = none := by
  cases hs : lastIndexOfChar s c with
  | none => rfl
  | some i =>
    exfalso
    exact h ((lastIndexOfChar_isSome_iff s c).mp (by simp [hs]))

lemma lastIndexOfChar_append_trigger (pre suffixText : List Char)
    (c : Char) (h : c ∉ suffixText) :
    lastIndexOfChar (pre ++ c :: suffixText) c = some pre.length := by
  induction pre with
  | nil =>
    simp [lastIndexOfChar, lastIndexOfChar_eq_none_of_not_mem h]
  | cons a t ih =>
    simp [lastIndexOfChar, ih]

lemma textBackUntil_at_end (pre filterText : List Char) (c : Char)
    (h : c ∉ filterText) :
    textBackUntil c (pre ++ c :: filterText)
        (pre ++ c :: filterText).length = some filterText := by
  simp only [textBackUntil, List.take_length,
    lastIndexOfChar_append_trigger pre filterText c h]
  congr 1
  rw [show pre.length + 1 = pre.length + 1 from rfl]
  rw [← List.drop_drop]
  rw [List.drop_left]
  rfl

lemma replaceTextBackUntil_removes (pre spanText : List Char) :
    replaceTextBackUntil (pre ++ spanText) spanText = pre := by
  simp only [replaceTextBackUntil,
    if_pos (List.suffix_append pre spanText)]
  have hlen : (pre ++ spanText).length - spanText.length = pre.length := by
    simp [List.length_append]
  rw [hlen, List.take_left]

/-- Claim C6: committing a candidate whose `sgid` is "R1" in default
(reference-node) mode inserts exactly one attachment node carrying "R1"
and the editor template of the candidate, and removes from the document
exactly the span made of the trigger character and the current filter
text (the text between the trigger and the cursor). -/
theorem commit_inserts_reference_node (cfg : PromptConfig)
    (item : PromptItem) (pre filterText : List Char)
    (hmode : cfg.insertEditableText = false)
    (hsgid : item.sgid = some "R1")
    (hfree : cfg.trigger ∉ filterText) :
    replaceTriggerWithSelectedItem cfg
        (some (buildListItemElementFor item))
        (pre ++ cfg.trigger :: filterText)
      = (pre,
         [InsertedContent.attachment
           { sgid := some "R1",
             contentType :=
               "application/vnd.actiontext." ++ cfg.name.getD "null",
             innerHtml := item.editorTemplate }]) := by
  have htb := textBackUntil_at_end pre filterText cfg.trigger hfree
  have hct :
      ¬ ("application/vnd.actiontext." ++ cfg.name.getD "null").length = 0 := by
    rw [String.length_append]
    have h27 : "application/vnd.actiontext.".length = 27 := rfl
    omega
  simp only [replaceTriggerWithSelectedItem, buildListItemElementFor,
    Option.map_some', htb, Option.getD_some, hmode, Bool.false_eq_true,
    if_false, mkCustomActionTextAttachmentNode, if_neg hct, hsgid]
  rw [replaceTextBackUntil_removes pre (cfg.trigger :: filterText)]

/-- Closed witness for the theorem of claim C6: committing the "John"
candidate on document text "hello @joh" with trigger "@". -/
theorem commit_inserts_reference_node_witness :
    ((⟨'@', some "mention", false⟩ : PromptConfig).insertEditableText
        = false)
    ∧ ((⟨"John".toList, some "R1", "John", "<em>John</em>"⟩ :
          PromptItem).sgid = some "R1")
    ∧ ('@' ∉ "joh".toList)
    ∧ replaceTriggerWithSelectedItem ⟨'@', some "mention", false⟩
        (some (buildListItemElementFor
          ⟨"John".toList, some "R1", "John", "<em>John</em>"⟩))
        ("hello ".toList ++ '@' :: "joh".toList)
      = ("hello ".toList,
         [InsertedContent.attachment
           { sgid := some "R1",
             contentType := "application/vnd.actiontext." ++
               (some "mention").getD "null",
             innerHtml := "<em>John</em>" }]) := by
  refine ⟨rfl, rfl, by decide, ?_⟩
  exact commit_inserts_reference_node ⟨'@', some "mention", false⟩
    ⟨"John".toList, some "R1", "John", "<em>John</em>"⟩
    ("hello ".toList) ("joh".toList) rfl rfl (by decide)

/-- Counterexample to claim C5 as stated: in reference-node mode
(`insert-editable-text` absent), committing the highlighted candidate
whose `sgid` attribute is missing is not a no-op — the code never checks
the sgid, so a single attachment node with an absent sgid is inserted
(with content type "application/vnd.actiontext.mention") and the
trigger-plus-filter span "@jo" is removed. -/
theorem commit_without_sgid_counterexample :
    (optionWasSelected ⟨'@', some "mention", false⟩
        (some (buildListItemElementFor
          ⟨"Jo".toList, none, "Jo", "<em>Jo</em>"⟩))
        ("hi @jo".toList)).inserted
      = [InsertedContent.attachment
          { sgid := none,
            contentType := "application/vnd.actiontext.mention",
            innerHtml := "<em>Jo</em>" }]
    ∧ (optionWasSelected ⟨'@', some "mention", false⟩
        (some (buildListItemElementFor
          ⟨"Jo".toList, none, "Jo", "<em>Jo</em>"⟩))
        ("hi @jo".toList)).inserted ≠ [] := by
  constructor
  · rfl
  · intro h
    simp [optionWasSelected, replaceTriggerWithSelectedItem,
      buildListItemElementFor] at h

/-- Claim C5 (amended): when insertion mode is reference-node and the
selected candidate carries no `sgid`, committing is not a no-op: it still
inserts exactly one attachment node — with an absent sgid — and removes
the trigger-plus-filter span; the session closes (popover hidden, editor
refocused).  Committing inserts nothing and leaves the document unchanged
precisely when the source yields no prompt item for the selection. -/
theorem commit_without_sgid (cfg : PromptConfig) (item : PromptItem)
    (pre filterText : List Char)
    (hmode : cfg.insertEditableText = false)
    (hsgid : item.sgid = none)
    (hfree : cfg.trigger ∉ filterText) :
    optionWasSelected cfg (some (buildListItemElementFor item))
        (pre ++ cfg.trigger :: filterText)
      = { docText := pre,
          inserted := [InsertedContent.attachment
            { sgid := none,
              contentType :=
                "application/vnd.actiontext." ++ cfg.name.getD "null",
              innerHtml := item.editorTemplate }],
          popoverOpen := false, editorFocused := true }
    ∧ ∀ (docText : List Char),
        optionWasSelected cfg none docText
          = { docText := docText, inserted := [],
              popoverOpen := false, editorFocused := true } := by
  constructor
  · have htb := textBackUntil_at_end pre filterText cfg.trigger hfree
    have hct :
        ¬ ("application/vnd.actiontext." ++ cfg.name.getD "null").length
            = 0 := by
      rw [String.length_append]
      have h27 : "application/vnd.actiontext.".length = 27 := rfl
      omega
    simp only [optionWasSelected, replaceTriggerWithSelectedItem,
      buildListItemElementFor, Option.map_some', htb, Option.getD_some,
      hmode, Bool.false_eq_true, if_false,
      mkCustomActionTextAttachmentNode, if_neg hct, hsgid]
    rw [replaceTextBackUntil_removes pre (cfg.trigger :: filterText)]
  · intro docText
    rfl

/-- Closed witness for the amended claim C5: the counterexample scenario,
instantiated through the amended theorem. -/
theorem commit_without_sgid_witness :
    ((⟨'@', some "mention", false⟩ : PromptConfig).insertEditableText
        = false)
    ∧ ((⟨"Jo".toList, none, "Jo", "<em>Jo</em>"⟩ : PromptItem).sgid = none)
    ∧ ('@' ∉ "jo".toList)
    ∧ optionWasSelected ⟨'@', some "mention", false⟩
        (some (buildListItemElementFor
          ⟨"Jo".toList, none, "Jo", "<em>Jo</em>"⟩))
        ("hi ".toList ++ '@' :: "jo".toList)
      = { docText := "hi ".toList,
          inserted := [InsertedContent.attachment
            { sgid := none,
              contentType := "application/vnd.actiontext." ++
                (some "mention").getD "null",
              innerHtml := "<em>Jo</em>" }],
          popoverOpen := false, editorFocused := true } := by
  refine ⟨rfl, rfl, by decide, ?_⟩
  exact (commit_without_sgid ⟨'@', some "mention", false⟩
    ⟨"Jo".toList, none, "Jo", "<em>Jo</em>"⟩
    ("hi ".toList) ("jo".toList) rfl rfl (by decide)).1

/-- Claim C10: when a commit fires while no menu item is selected — in
particular when only the non-selectable empty-results entry is displayed —
the selection over the rendered entries is empty, the source yields no
prompt item, and the commit inserts nothing and leaves the document text
unchanged while the popover still closes and focus returns to the
editor. -/
theorem commit_with_no_selection :
    ∀ (attr : Option String) (cfg : PromptConfig) (docText : List Char),
      selectedAfterRender (showFilteredOptionsRender [] attr) = none
      ∧ (selectedAfterRender (showFilteredOptionsRender [] attr)).map
          MenuListItem.sourceItem = none
      ∧ optionWasSelected cfg
          (selectedAfterRender (showFilteredOptionsRender [] attr)) docText
        = { docText := docText, inserted := [],
            popoverOpen := false, editorFocused := true } := by
  intro attr cfg docText
  refine ⟨rfl, rfl, rfl⟩

/-- Counterexample to claim C2 as stated: a `fetch` initiated while the
construction-time retrieval is still in flight does not await the pending
operation — `promptItems` is still unset when it runs its nullish check,
so it issues a second network request: after construction plus one
concurrent `fetchPromptItems` call the instance has issued two
retrievals, not exactly one. -/
theorem deferred_concurrent_fetch_counterexample :
    (deferredRun (deferredInit [⟨"Jo".toList, some "P1", "Jo", "Jo"⟩])
        [DeferredEvent.callStart
          [⟨"Jo".toList, some "P1", "Jo", "Jo"⟩]]).requestCount = 2
    ∧ ¬ (deferredRun (deferredInit [⟨"Jo".toList, some "P1", "Jo", "Jo"⟩])
        [DeferredEvent.callStart
          [⟨"Jo".toList, some "P1", "Jo", "Jo"⟩]]).requestCount = 1 := by
  constructor
  · rfl
  · intro h
    simp [deferredRun, deferredInit, deferredStep] at h

lemma deferredRun_cached {s : DeferredState}
    (hloaded : s.promptItems.isSome = true) :
    ∀ (events : List DeferredEvent),
      (∀ e ∈ events, DeferredEvent.isCall e = true) →
      deferredRun s events = s := by
  intro events
  induction events with
  | nil => intro _; rfl
  | cons e rest ih =>
    intro hall
    have he : DeferredEvent.isCall e = true := hall e (by simp)
    have hstep : deferredStep s e = s := by
      cases e with
      | callStart responseItems =>
        cases hsome : s.promptItems with
        | none => rw [hsome] at hloaded; simp at hloaded
        | some items => simp [deferredStep, hsome]
      | complete idx => simp [DeferredEvent.isCall] at he
    show deferredRun (deferredStep s e) rest = s
    rw [hstep]
    exact ih (fun e' he' => hall e' (by simp [he']))

/-- Claim C2 (amended): the `DeferredPromptSource` (CachedRemote) issues
exactly one retrieval at construction, and after that retrieval has
resolved, any number of further `fetchPromptItems` calls — for instance
from two sessions opened sequentially — reuse the cached items and issue
no additional request, leaving the instance at exactly one retrieval.
(A fetch initiated while the construction retrieval is still in flight,
however, issues a second request instead of awaiting the pending one; see
the counterexample.) -/
theorem deferred_single_retrieval_when_sequential
    (responseItems : List PromptItem) (events : List DeferredEvent)
    (hcalls : ∀ e ∈ events, DeferredEvent.isCall e = true) :
    (deferredInit responseItems).requestCount = 1
    ∧ (deferredStep (deferredInit responseItems)
        (DeferredEvent.complete 0)).promptItems = some responseItems
    ∧ (deferredRun
        (deferredStep (deferredInit responseItems)
          (DeferredEvent.complete 0)) events).requestCount = 1
    ∧ (deferredRun
        (deferredStep (deferredInit responseItems)
          (DeferredEvent.complete 0)) events).promptItems
        = some responseItems := by
  have hloadedState : deferredStep (deferredInit responseItems)
      (DeferredEvent.complete 0)
      = { promptItems := some responseItems, pending := [],
          requestCount := 1 } := rfl
  have hrun := deferredRun_cached
    (s := { promptItems := some responseItems, pending := [],
            requestCount := 1 }) rfl events hcalls
  refine ⟨rfl, by rw [hloadedState], ?_, ?_⟩
  · rw [hloadedState, hrun]
  · rw [hloadedState, hrun]

/-- Closed witness for the amended claim C2: two sessions opened after the
initial load each call `fetchPromptItems`; the request count stays 1. -/
theorem deferred_single_retrieval_witness :
    (∀ e ∈ [DeferredEvent.callStart
              [(⟨"Jo".toList, some "P1", "Jo", "Jo"⟩ : PromptItem)],
            DeferredEvent.callStart
              [(⟨"Jo".toList, some "P1", "Jo", "Jo"⟩ : PromptItem)]],
        DeferredEvent.isCall e = true)
    ∧ (deferredRun
        (deferredStep
          (deferredInit [(⟨"Jo".toList, some "P1", "Jo", "Jo"⟩ : PromptItem)])
          (DeferredEvent.complete 0))
        [DeferredEvent.callStart
           [(⟨"Jo".toList, some "P1", "Jo", "Jo"⟩ : PromptItem)],
         DeferredEvent.callStart
           [(⟨"Jo".toList, some "P1", "Jo", "Jo"⟩ : PromptItem)]]).requestCount
      = 1 := by
  refine ⟨by decide, ?_⟩
  exact (deferred_single_retrieval_when_sequential
    [(⟨"Jo".toList, some "P1", "Jo", "Jo"⟩ : PromptItem)]
    [DeferredEvent.callStart
       [(⟨"Jo".toList, some "P1", "Jo", "Jo"⟩ : PromptItem)],
     DeferredEvent.callStart
       [(⟨"Jo".toList, some "P1", "Jo", "Jo"⟩ : PromptItem)]]
    (by decide)).2.2.1

/-- Claim C1: a retrieval that is no longer the most recently issued one
never changes the display when it completes; in the concrete R1/R2
scenario (R1 for "jo" issued, then R2 for "joh" issued, R2 completes, R1
completes later) the displayed results end up being those of R2, and
after no prefix of the scenario are those of R1 displayed. -/
theorem overlay_discards_stale_results :
    (∀ (s : OverlayState) (seq : Nat), seq ≠ s.latestIssued →
      (overlayStep s (RemoteEvent.complete seq)).displayed = s.displayed)
    ∧ (overlayRun overlayInit staleScenario).displayed
        = some (2, resultsR2)
    ∧ (∀ k, (overlayRun overlayInit (staleScenario.take k)).displayed
        ≠ some (1, resultsR1)) := by
  refine ⟨?_, by decide, ?_⟩
  · intro s seq hne
    simp only [overlayStep]
    cases hfind : s.inFlight.find? (fun p => p.1 == seq) with
    | none => rfl
    | some p => simp [if_neg hne]
  · intro k
    match k with
    | 0 => decide
    | 1 => decide
    | 2 => decide
    | 3 => decide
    | (n + 4) =>
      have h : staleScenario.take (n + 4) = staleScenario := by
        apply List.take_of_length_le
        simp [staleScenario]
      rw [h]
      decide

/-- Closed witness for the theorem of claim C1: the staleness conjunct
applied to the state reached after both issues of the scenario, where
completing retrieval 1 (no longer the latest) must leave the display
unchanged. -/
theorem overlay_discards_stale_results_witness :
    ((1 : Nat) ≠ (overlayRun overlayInit (staleScenario.take 2)).latestIssued)
    ∧ (overlayStep (overlayRun overlayInit (staleScenario.take 2))
        (RemoteEvent.complete 1)).displayed
      = (overlayRun overlayInit (staleScenario.take 2)).displayed := by
  refine ⟨by decide, ?_⟩
  exact overlay_discards_stale_results.1
    (overlayRun overlayInit (staleScenario.take 2)) 1 (by decide)

/-- Claim C9: `RemoteFilterSource` fetches are debounced with a 200ms
trailing window: any two retrievals actually fired are more than
`DEBOUNCE_INTERVAL` = 200ms apart (so at most one retrieval is issued per
trailing window), and a rapid burst of keystrokes at 0, 100, 250 and
300ms collapses into the single retrieval fired for the last call. -/
theorem debounced_retrievals_spaced_out :
    (∀ (calls : List Nat) (t u : Nat),
      t ∈ firedCalls calls → u ∈ firedCalls calls → t < u →
      DEBOUNCE_INTERVAL < u - t)
    ∧ firedCalls [0, 100, 250, 300] = [300]
    ∧ DEBOUNCE_INTERVAL = 200 := by
  refine ⟨?_, by decide, rfl⟩
  intro calls t u ht hu htu
  rw [firedCalls, List.mem_filter] at ht hu
  obtain ⟨htcalls, htquiet⟩ := ht
  obtain ⟨hucalls, _⟩ := hu
  have hq := (List.all_eq_true.mp htquiet) u hucalls
  simp only [Bool.not_eq_true', Bool.and_eq_false_iff,
    decide_eq_false_iff_not, not_lt, not_le] at hq
  rcases hq with h | h
  · omega
  · omega

/-- Closed witness for the theorem of claim C9: two keystrokes 300ms apart
both fire, and the theorem yields that their retrievals are more than
200ms apart. -/
theorem debounced_retrievals_spaced_out_witness :
    (0 ∈ firedCalls [0, 300]) ∧ (300 ∈ firedCalls [0, 300])
    ∧ ((0 : Nat) < 300) ∧ DEBOUNCE_INTERVAL < 300 - 0 := by
  refine ⟨by decide, by decide, by decide, ?_⟩
  exact debounced_retrievals_spaced_out.1 [0, 300] 0 300
    (by decide) (by decide) (by decide)

end Lexxy
